import Mathlib

/-!
Shallow embedding of the pindrop audio-engine core (src/src/audio_engine.cpp,
src/src/channel.cpp, src/src/sound.cpp) used to settle the claims of the
specification.  Machine floats of the source are modelled as exact rationals;
SDL_mixer is modelled as an abstract `Mixer` record holding the observable
state the core consults (per-channel playing flags, the music-playing flag,
and whether a play request is accepted), together with a trace of the mixer
commands the engine issues.
-/

namespace Pindrop

/-- `ChannelId` is a plain machine integer in the source (`typedef int`). -/
abbrev ChannelId := Int

/-- `kChannelFadeOutRateMs` of audio_engine.cpp. -/
def kChannelFadeOutRateMs : Nat := 10

/-- `kAllChannels` of audio_engine.cpp (SDL broadcast value). -/
def kAllChannels : ChannelId := -1

/-- `kStreamChannel` of audio_engine.cpp: sentinel for the stream voice. -/
def kStreamChannel : ChannelId := -100

/-- `AudioEngine::kInvalidChannel` of audio_engine.cpp. -/
def kInvalidChannel : ChannelId := -1

/-- The fields of `SoundCollectionDef` the core reads: `gain()`, `priority()`
(floats, modelled as rationals), and `loop()`, `stream()` (numeric flags the
source tests with `!= 0` and subtracts as integers). -/
structure SoundCollectionDef where
  gain : ℚ
  priority : ℚ
  loop : Nat
  stream : Nat
deriving DecidableEq

/-- One playable variant (`SoundBuffer` or `SoundStream` of sound.cpp):
its per-variant sample gain and its kind.  `SoundBuffer::Play` issues
`Mix_PlayChannel` on the given channel; `SoundStream::Play` ignores the
channel and issues `Mix_PlayMusic`. -/
structure SoundSource where
  sampleGain : ℚ
  isStream : Bool
deriving DecidableEq

/-- The part of `SoundCollection` the engine consults during `PlaySound`:
its definition record, the bus it is bound to (a bus index; `none` models a
null bus pointer, which the `PlayingSound` special members test for), and
the variant `Select()` returns for this play. -/
structure SoundCollection where
  scdef : SoundCollectionDef
  bus : Option Nat
  selected : SoundSource
deriving DecidableEq

/-- `AudioEngine::PlayingSound` data fields (audio_engine.cpp lines 43-52). -/
structure PlayingSound where
  sound_collection : SoundCollection
  channel_id : ChannelId
  start_time : Int
deriving DecidableEq

/-- Observable SDL_mixer state consulted by the core: the allocated buffer
channel count, the per-channel `Mix_Playing` flag, the `Mix_PlayingMusic`
flag, and whether the mixer accepts a `Mix_PlayChannel` / `Mix_PlayMusic`
request. -/
structure Mixer where
  allocated : Nat
  channelPlaying : Int → Bool
  musicPlaying : Bool
  playChannelOk : Bool
  playMusicOk : Bool

/-- Commands the engine issues to the mixer, recorded as a trace. -/
inductive MixerEvent where
  | haltMusic
  | haltChannel (ch : ChannelId)
  | playMusic
  | playChannel (ch : ChannelId)
  | setChannelVolume (ch : ChannelId) (gain : ℚ)
  | setMusicVolume (gain : ℚ)
deriving DecidableEq

/-- `AudioEngine::Playing` (audio_engine.cpp lines 311-318). -/
def enginePlaying (m : Mixer) (channel_id : ChannelId) : Bool :=
  if channel_id = kStreamChannel then m.musicPlaying
  else m.channelPlaying channel_id

/-- `AudioEngine::Halt` (audio_engine.cpp lines 302-309), as a mixer-state
update. -/
def engineHalt (m : Mixer) (channel_id : ChannelId) : Mixer :=
  if channel_id = kStreamChannel then { m with musicPlaying := false }
  else { m with channelPlaying := fun i => if i = channel_id then false else m.channelPlaying i }

/-- The trace entry `AudioEngine::Halt` produces. -/
def engineHaltEvent (channel_id : ChannelId) : MixerEvent :=
  if channel_id = kStreamChannel then MixerEvent.haltMusic
  else MixerEvent.haltChannel channel_id

/-- `PlayingChannelCount` (audio_engine.cpp lines 215-218): `Mix_Playing(-1)`
counts the playing buffer channels. -/
def playingChannelCount (m : Mixer) : Nat :=
  ((List.range m.allocated).filter (fun i => m.channelPlaying (Int.ofNat i))).length

/-- `FindFreeChannel` (audio_engine.cpp lines 220-233): the stream request
always gets the stream channel; otherwise the first non-playing buffer
channel, or `kInvalidChannel` when all are busy. -/
def findFreeChannel (stream : Bool) (m : Mixer) : ChannelId :=
  if stream then kStreamChannel
  else if playingChannelCount m < m.allocated then
    match (List.range m.allocated).find? (fun i => ! m.channelPlaying (Int.ofNat i)) with
    | some i => Int.ofNat i
    | none => kInvalidChannel
  else kInvalidChannel

/-- `SoundCollectionDefComparitor` (audio_engine.cpp lines 235-244).  Note
the non-stream branch returns `-1` or `1` but never `0`. -/
def soundCollectionDefComparitor (a b : SoundCollectionDef) : Int :=
  if a.stream ≠ 0 ∨ b.stream ≠ 0 then (b.stream : Int) - (a.stream : Int)
  else if b.priority - a.priority < 0 then -1 else 1

/-- `AudioEngine::PriorityComparitor` (audio_engine.cpp lines 249-258): the
three-way integer comparator; the start-time tiebreak runs only when the
definition comparator returned `0`. -/
def priorityComparitor (a b : PlayingSound) : Int :=
  let result := soundCollectionDefComparitor a.sound_collection.scdef b.sound_collection.scdef
  if result = 0 then b.start_time - a.start_time else result

/-- The boolean predicate `std::sort` actually receives in
`PrioritizeChannels`: the `int` result of `PriorityComparitor` implicitly
converted to `bool` (nonzero becomes `true`). -/
def priorityComparitorAsBool (a b : PlayingSound) : Bool :=
  priorityComparitor a b != 0

/-- `AudioEngine::PrioritizeChannels` (audio_engine.cpp lines 261-264):
`std::sort` over `priorityComparitorAsBool`.  That predicate is not a strict
weak ordering (it is not even irreflexive), so the C++ call has undefined
behavior; the embedding resolves it deterministically as a stable merge sort
on the very predicate the source supplies. -/
def prioritizeChannels (l : List PlayingSound) : List PlayingSound :=
  l.mergeSort priorityComparitorAsBool

/-- The engine state the playing-sounds bookkeeping touches: the
`playing_sounds_` vector, every bus's `sound_counter` (indexed by bus
index), and `world_time_`. -/
structure EngineState where
  playing_sounds : List PlayingSound
  sound_counter : Nat → Int
  world_time : Int

/-- `Bus::IncrementSoundCounter` on an optional bus pointer (no-op on null,
as the `if (bus)` guards in the `PlayingSound` special members). -/
def incCounter (c : Nat → Int) (bus : Option Nat) : Nat → Int :=
  match bus with
  | none => c
  | some b => fun i => if i = b then c i + 1 else c i

/-- `Bus::DecrementSoundCounter` on an optional bus pointer. -/
def decCounter (c : Nat → Int) (bus : Option Nat) : Nat → Int :=
  match bus with
  | none => c
  | some b => fun i => if i = b then c i - 1 else c i

/-- Counter effect of the `PlayingSound` constructor and copy constructor
(audio_engine.cpp lines 43-62): increment the collection's bus counter. -/
def psConstruct (c : Nat → Int) (ps : PlayingSound) : Nat → Int :=
  incCounter c ps.sound_collection.bus

/-- Counter effect of the `PlayingSound` destructor (lines 64-69):
decrement the collection's bus counter. -/
def psDestruct (c : Nat → Int) (ps : PlayingSound) : Nat → Int :=
  decCounter c ps.sound_collection.bus

/-- Counter effect of `PlayingSound::operator=` (lines 71-85): decrement the
target's bus, increment the source's bus. -/
def psAssign (c : Nat → Int) (target other : PlayingSound) : Nat → Int :=
  incCounter (decCounter c target.sound_collection.bus) other.sound_collection.bus

/-- `playing_sounds_.push_back(ps)`: the temporary's construction (+1), the
copy into the vector (+1) and the temporary's destruction (-1) net to one
`psConstruct`. -/
def pushBack (st : EngineState) (ps : PlayingSound) : EngineState :=
  { st with playing_sounds := st.playing_sounds ++ [ps],
            sound_counter := psConstruct st.sound_counter ps }

/-- `playing_sounds_.pop_back()`: destroys the last element. -/
def popBack (st : EngineState) : EngineState :=
  match st.playing_sounds.getLast? with
  | none => st
  | some ps =>
      { st with playing_sounds := st.playing_sounds.dropLast,
                sound_counter := psDestruct st.sound_counter ps }

/-- `erase(remove_if(p))` on `playing_sounds_`: keeps the entries failing
`p`; the assignments performed by `remove_if` are counter-neutral per
surviving value (`psAssign` nets zero across the shuffle) and the final
`erase` destroys one live `PlayingSound` value per removed entry. -/
def removeIf (st : EngineState) (p : PlayingSound → Bool) : EngineState :=
  { st with playing_sounds := st.playing_sounds.filter (fun x => ! p x),
            sound_counter := (st.playing_sounds.filter p).foldl psDestruct st.sound_counter }

/-- `AudioEngine::EraseFinishedSounds` (audio_engine.cpp lines 267-274). -/
def eraseFinishedSounds (m : Mixer) (st : EngineState) : EngineState :=
  removeIf st (fun ps => ! enginePlaying m ps.channel_id)

/-- `AudioEngine::EraseStreams` (audio_engine.cpp lines 277-284). -/
def eraseStreams (st : EngineState) : EngineState :=
  removeIf st (fun ps => ps.channel_id == kStreamChannel)

/-- `AudioEngine::PlaySource` (audio_engine.cpp lines 286-296): set the
channel gain to `variant_gain * def.gain`, then ask the source to play;
returns the success flag, the updated mixer and the issued commands. -/
def playSource (source : SoundSource) (channel_id : ChannelId)
    (collection : SoundCollection) (m : Mixer) : Bool × Mixer × List MixerEvent :=
  let gain := source.sampleGain * collection.scdef.gain
  if source.isStream then
    (m.playMusicOk,
     (if m.playMusicOk then { m with musicPlaying := true } else m),
     [MixerEvent.setMusicVolume gain, MixerEvent.playMusic])
  else
    (m.playChannelOk,
     (if m.playChannelOk then
        { m with channelPlaying := fun i => if i = channel_id then true else m.channelPlaying i }
      else m),
     [MixerEvent.setChannelVolume channel_id gain, MixerEvent.playChannel channel_id])

/-- Tail of `AudioEngine::PlaySound` (audio_engine.cpp lines 375-381): try
`PlaySource`; on success record a `PlayingSound(collection, new_channel,
world_time_)`; return `new_channel` either way. -/
def playFinish (st : EngineState) (m : Mixer) (collection : SoundCollection)
    (new_channel : ChannelId) (evs : List MixerEvent) :
    Option (ChannelId × EngineState × Mixer × List MixerEvent) :=
  let r := playSource collection.selected new_channel collection m
  let st2 := if r.1 then pushBack st (PlayingSound.mk collection new_channel st.world_time) else st
  some (new_channel, st2, r.2.1, evs ++ r.2.2)

/-- `AudioEngine::PlaySound(SoundHandle)` (audio_engine.cpp lines 330-382).
The result is `none` exactly when the source would evaluate
`playing_sounds_.back()` on an empty vector (undefined behavior in C++);
otherwise `some (returned channel, engine state, mixer state, trace)`. -/
def playSound (st : EngineState) (m : Mixer) (sound_handle : Option SoundCollection) :
    Option (ChannelId × EngineState × Mixer × List MixerEvent) :=
  match sound_handle with
  | none => some (kInvalidChannel, st, m, [])
  | some collection =>
    let st1 := eraseFinishedSounds m st
    let stream := collection.scdef.stream ≠ 0
    let new_channel := findFreeChannel stream m
    if new_channel = kInvalidChannel then
      let sorted := prioritizeChannels st1.playing_sounds
      let st2 := { st1 with playing_sounds := sorted }
      match sorted.getLast? with
      | none => none
      | some victim =>
        if soundCollectionDefComparitor collection.scdef victim.sound_collection.scdef < 0 then
          let newCh := victim.channel_id
          playFinish (popBack st2) (engineHalt m newCh) collection newCh [engineHaltEvent newCh]
        else
          some (kInvalidChannel, st2, m, [])
    else if new_channel = kStreamChannel then
      if enginePlaying m new_channel then
        playFinish (eraseStreams st1) (engineHalt m new_channel) collection new_channel
          [engineHaltEvent new_channel]
      else
        playFinish st1 m collection new_channel []
    else
      playFinish st1 m collection new_channel []

/-- `AudioEngine::AdvanceFrame` (audio_engine.cpp lines 445-462) restricted
to the state this file tracks: it updates `world_time_` and leaves
`playing_sounds_` and every `sound_counter` untouched (the duck and gain
recomputation lives in the `Bus` class, whose code is not under src/ and is
modelled separately below; the per-channel volume pushes do not modify the
engine state). -/
def advanceFrame (st : EngineState) (world_time : Int) : EngineState :=
  { st with world_time := world_time }

/-- `kFadeOutDurationMs` of channel.cpp. -/
def kFadeOutDurationMs : Nat := 10

/-- The part of `ChannelInternalState` that `Channel::Stop` consults
(channel.cpp lines 34-44): the channel's current gain. -/
structure ChannelInternalState where
  gain : ℚ
deriving DecidableEq

/-- The mixer command `Channel::Stop` issues. -/
inductive ChannelAction where
  | halt
  | fadeOut (ms : Nat)
deriving DecidableEq

/-- `Channel::Stop` (channel.cpp lines 34-44): a `Channel` wraps a nullable
`state_` pointer (`none` is the invalid handle, on which `Stop` asserts);
on a valid handle it halts immediately when the gain is zero and otherwise
fades out over `kFadeOutDurationMs`. -/
def channelStop (state_ : Option ChannelInternalState) : Option ChannelAction :=
  match state_ with
  | none => none
  | some s =>
      if s.gain = 0 then some ChannelAction.halt
      else some (ChannelAction.fadeOut kFadeOutDurationMs)

/-- `SoundBank` as the engine sees it: its `ref_counter`, whether
`Initialize` has ever succeeded on it, and the collection names it lists. -/
structure SoundBank where
  ref_counter : Int
  inited : Bool
  collections : List String
deriving DecidableEq

/-- The bank-related engine state: `sound_bank_map_` and, for each entry of
`collection_map_`, the collection's own reference count. -/
structure BankEngineState where
  sound_bank_map : List (String × SoundBank)
  collection_map : List (String × Int)
deriving DecidableEq

/-- Update the bank stored under `name` in the association list. -/
def updateBank (l : List (String × SoundBank)) (name : String)
    (f : SoundBank → SoundBank) : List (String × SoundBank) :=
  l.map (fun p => if p.1 = name then (p.1, f p.2) else p)

/-- Modelled from the spec: loading one collection for a bank during
`SoundBank::Initialize` (sound_bank.cpp is not under src/) — §4.2: the
collection is registered in the engine's collection map if not already
present and its own ref counter is incremented for this bank. -/
def loadCollection (cm : List (String × Int)) (c : String) : List (String × Int) :=
  match cm.lookup c with
  | some _ => cm.map (fun p => if p.1 = c then (p.1, p.2 + 1) else p)
  | none => cm ++ [(c, 1)]

/-- Modelled from the spec: releasing one collection during
`SoundBank::Deinitialize` (sound_bank.cpp is not under src/) — §4.2: the
collection's ref counter is decremented and, at zero, the collection is
removed from the engine's collection map. -/
def unloadCollection (cm : List (String × Int)) (c : String) : List (String × Int) :=
  match cm.lookup c with
  | some n =>
      if n - 1 = 0 then cm.filter (fun p => p.1 ≠ c)
      else cm.map (fun p => if p.1 = c then (p.1, n - 1) else p)
  | none => cm

/-- Modelled from the spec: `SoundBank::Initialize`'s effect on the
collection map — it loads each collection the bank references. -/
def bankInitCollections (cm : List (String × Int)) (cs : List String) :
    List (String × Int) :=
  cs.foldl loadCollection cm

/-- Modelled from the spec: `SoundBank::Deinitialize`'s effect on the
collection map — it walks the bank's collections and releases each. -/
def bankDeinitCollections (cm : List (String × Int)) (cs : List String) :
    List (String × Int) :=
  cs.foldl unloadCollection cm

/-- `AudioEngine::LoadSoundBank` (audio_engine.cpp lines 151-165).  Note the
source's `sound_bank_map_[filename]` inserts the (empty, counter-zero) bank
record BEFORE `Initialize` runs, and a failed `Initialize` leaves that
record registered.  `bankDef` is the collection list of the bank file and
`initOk` abstracts whether `SoundBank::Initialize` succeeds. -/
def loadSoundBank (st : BankEngineState) (filename : String)
    (bankDef : List String) (initOk : Bool) : Bool × BankEngineState :=
  match st.sound_bank_map.lookup filename with
  | none =>
      let st1 : BankEngineState :=
        { st with sound_bank_map := st.sound_bank_map ++ [(filename, ⟨0, false, bankDef⟩)] }
      if initOk then
        (true,
         { sound_bank_map :=
             updateBank st1.sound_bank_map filename
               (fun b => { b with ref_counter := b.ref_counter + 1, inited := true }),
           collection_map := bankInitCollections st1.collection_map bankDef })
      else
        (false, st1)
  | some _ =>
      (true,
       { st with sound_bank_map :=
           (updateBank st.sound_bank_map filename
             (fun b => { b with ref_counter := b.ref_counter + 1 })) })

/-- `AudioEngine::UnloadSoundBank` (audio_engine.cpp lines 167-179):
decrement the bank's counter; deinitialize exactly when it reaches zero.
On an unregistered name the source asserts and then dereferences the end
iterator (undefined behavior), modelled as `none`.  The bank record is NOT
removed from `sound_bank_map_`. -/
def unloadSoundBank (st : BankEngineState) (filename : String) :
    Option BankEngineState :=
  match st.sound_bank_map.lookup filename with
  | none => none
  | some bank =>
      let st1 : BankEngineState :=
        { st with sound_bank_map :=
            (updateBank st.sound_bank_map filename
              (fun b => { b with ref_counter := b.ref_counter - 1 })) }
      if bank.ref_counter - 1 = 0 then
        some { st1 with collection_map := bankDeinitCollections st1.collection_map bank.collections }
      else
        some st1

/-- Modelled from the spec: the bus gain tree (`Bus::UpdateGain` lives in
bus.h / bus.cpp, which are not under src/) — §4.4 step 5: starting from the
master bus, `bus.gain = parent_gain * bus.def.gain * bus.duck_gain`, then
recurse into children; the master's parent gain is `mute ? 0 : master_gain`.
A node carries its definition gain, its current duck gain and its child
buses. -/
inductive BusTree where
  | node (defGain duckGain : ℚ) (children : List BusTree)

/-- Definition gain of the root node. -/
def BusTree.defGainOf : BusTree → ℚ
  | BusTree.node g _ _ => g

/-- Duck gain of the root node. -/
def BusTree.duckGainOf : BusTree → ℚ
  | BusTree.node _ d _ => d

/-- Children of the root node. -/
def BusTree.childrenOf : BusTree → List BusTree
  | BusTree.node _ _ cs => cs

/-- Modelled from the spec: the gain `Bus::UpdateGain` computes for the bus
reached from the root through the given child-index path (`none` when the
path leaves the tree).  The root's own gain is the `[]` case. -/
def busGainAt (parent_gain : ℚ) : BusTree → List Nat → Option ℚ
  | BusTree.node g d _, [] => some (parent_gain * g * d)
  | BusTree.node g d cs, i :: p =>
      match cs[i]? with
      | none => none
      | some c => busGainAt (parent_gain * g * d) c p

/-- The buses visited along a child-index path, root first, endpoint last. -/
def busPathNodes : BusTree → List Nat → Option (List BusTree)
  | t, [] => some [t]
  | t, i :: p =>
      match t.childrenOf[i]? with
      | none => none
      | some c => (busPathNodes c p).map (fun l => t :: l)

/-- Number of `playing_sounds` entries whose collection is bound to bus `b`
(the right-hand side of the channel-accounting invariant of §8.1). -/
def countBus (l : List PlayingSound) (b : Nat) : Int :=
  (l.countP (fun ps => ps.sound_collection.bus == some b) : Int)

/-- Channel accounting invariant: every bus's `sound_counter` equals the
number of playing sounds bound to it. -/
def countersOk (st : EngineState) : Prop :=
  ∀ b, st.sound_counter b = countBus st.playing_sounds b

/-- Number of `playing_sounds` entries occupying the stream channel. -/
def streamCount (l : List PlayingSound) : Nat :=
  l.countP (fun ps => ps.channel_id == kStreamChannel)

/-- Fixture: a non-stream collection definition with unit gain, priority
`p`, no loop. -/
def cdefNS (p : ℚ) : SoundCollectionDef := ⟨1, p, 0, 0⟩

/-- Fixture: a buffer variant with unit sample gain. -/
def src0 : SoundSource := ⟨1, false⟩

/-- Fixture: a non-stream collection of priority `p` bound to bus 0. -/
def collP (p : ℚ) : SoundCollection := ⟨cdefNS p, some 0, src0⟩

/-- Fixture: a playing non-stream sound of priority `p` on channel `ch`
started at `t`. -/
def psP (p : ℚ) (ch : Int) (t : Int) : PlayingSound := ⟨collP p, ch, t⟩

/-- Fixture: a mixer with two buffer channels, both busy, accepting plays. -/
def mFull : Mixer := ⟨2, fun _ => true, false, true, true⟩

/-- Fixture: a table holding a priority-1 sound on channel 0 (started
first, listed first) and a priority-5 sound on channel 1. -/
def stLH : EngineState := ⟨[psP 1 0 0, psP 5 1 0], fun b => if b = 0 then 2 else 0, 7⟩

/-- Fixture: a one-channel mixer, idle, that rejects every play request. -/
def mReject : Mixer := ⟨1, fun _ => false, false, false, false⟩

/-- Fixture: the empty engine state. -/
def stEmpty : EngineState := ⟨[], fun _ => 0, 0⟩

/-- Fixture: a mixer with zero allocated buffer channels and nothing
playing. -/
def mZero : Mixer := ⟨0, fun _ => false, false, true, true⟩

/-- Fixture: a stream collection definition. -/
def cdefS : SoundCollectionDef := ⟨1, 0, 0, 1⟩

/-- Fixture: a stream variant. -/
def srcS : SoundSource := ⟨1, true⟩

/-- Fixture: a stream collection bound to bus 1. -/
def collS : SoundCollection := ⟨cdefS, some 1, srcS⟩

/-- Fixture: a mixer whose stream voice is currently playing. -/
def mMusic : Mixer := ⟨2, fun _ => false, true, true, true⟩

/-- Fixture: a table holding one stream sound on the stream channel. -/
def stS : EngineState := ⟨[⟨collS, kStreamChannel, 0⟩], fun b => if b = 1 then 1 else 0, 3⟩

/-- Fixture: the empty bank state. -/
def bk0 : BankEngineState := ⟨[], []⟩

/-- Fixture: bank state after loading bank A, which lists collection C. -/
def bkA : BankEngineState := (loadSoundBank bk0 "A" ["C"] true).2

/-- Fixture: bank state after additionally loading bank B, which also
lists collection C. -/
def bkAB : BankEngineState := (loadSoundBank bkA "B" ["C"] true).2

/-- Fixture: a leaf bus with definition gain 1 and duck gain 1. -/
def busX : BusTree := BusTree.node 1 1 []

/-- Fixture: a master bus with definition gain 1 that is currently half
ducked, with `busX` as its only child. -/
def busMaster : BusTree := BusTree.node 1 (1/2) [busX]

theorem mergeSort_pair {α : Type} (le : α → α → Bool) (a b : α) :
    List.mergeSort [a, b] le = if le a b then [a, b] else [b, a] := by
  simp [List.mergeSort, List.splitInTwo, List.splitAt, List.splitAt.go, List.merge]

/-- C8: for every valid channel handle, `Channel::Stop` halts the voice
immediately when the channel's current gain equals zero, and otherwise
issues a 10-millisecond fade-out instead of an immediate halt. -/
theorem c8_stop_fades_unless_silent (s : ChannelInternalState) :
    (s.gain = 0 → channelStop (some s) = some ChannelAction.halt) ∧
    (s.gain ≠ 0 → channelStop (some s) = some (ChannelAction.fadeOut 10)) := by
  refine ⟨fun h => ?_, fun h => ?_⟩
  · simp [channelStop, h]
  · simp [channelStop, h, kFadeOutDurationMs]

/-- Witness for C8: a silent channel is halted, a channel at gain 1 gets
the 10 ms fade. -/
theorem c8_stop_fades_unless_silent_witness :
    channelStop (some ⟨0⟩) = some ChannelAction.halt ∧
    channelStop (some ⟨1⟩) = some (ChannelAction.fadeOut 10) :=
  ⟨(c8_stop_fades_unless_silent ⟨0⟩).1 rfl,
   (c8_stop_fades_unless_silent ⟨1⟩).2 (by norm_num)⟩

/-- C3: the claimed start-time tiebreak is dead code for non-stream sounds.
For two non-stream entries of equal numeric priority (here priority 1, with
start times 10 and 0), `PriorityComparitor` returns `1` in both argument
orders — `SoundCollectionDefComparitor`'s non-stream branch returns `-1` or
`1` but never `0`, so the `b.start_time - a.start_time` tiebreak is never
consulted — and the later-started entry does not sort ahead of the
earlier-started one after `PrioritizeChannels`. -/
theorem c3_tiebreak_never_reached :
    priorityComparitor (psP 1 0 10) (psP 1 1 0) = 1 ∧
    priorityComparitor (psP 1 1 0) (psP 1 0 10) = 1 ∧
    prioritizeChannels [psP 1 0 0, psP 1 1 10] = [psP 1 0 0, psP 1 1 10] := by
  refine ⟨?_, ?_, ?_⟩ <;>
    norm_num [prioritizeChannels, mergeSort_pair, priorityComparitorAsBool,
      priorityComparitor, soundCollectionDefComparitor, psP, collP, cdefNS]

/-- C1: the preemption policy does not see a highest-priority-first order.
The predicate handed to `std::sort` (the `int` comparator converted to
`bool`) is true on both orders of a priority-5 and a priority-1 sound and
even on a pair of identical entries, violating `std::sort`'s
strict-weak-ordering precondition; consequently `PrioritizeChannels` does
not put the lowest-priority sound at the back.  Concretely, with the table
`[priority 1 on channel 0, priority 5 on channel 1]` and every buffer
channel busy, playing a priority-3 sound returns `Invalid` and preempts
nothing, although the claim requires the priority-1 sound to be evicted and
channel 0 to be returned. -/
theorem c1_preemption_sort_bug :
    priorityComparitorAsBool (psP 5 1 0) (psP 1 0 0) = true ∧
    priorityComparitorAsBool (psP 1 0 0) (psP 5 1 0) = true ∧
    priorityComparitorAsBool (psP 5 1 0) (psP 5 1 0) = true ∧
    (playSound stLH mFull (some (collP 3))).map (fun r => (r.1, r.2.1.playing_sounds)) =
      some (kInvalidChannel, [psP 1 0 0, psP 5 1 0]) := by
  refine ⟨?_, ?_, ?_, ?_⟩ <;>
    norm_num [playSound, eraseFinishedSounds, removeIf, enginePlaying, findFreeChannel,
      playingChannelCount, prioritizeChannels, mergeSort_pair, priorityComparitorAsBool,
      priorityComparitor, soundCollectionDefComparitor, playFinish, playSource, pushBack,
      popBack, psConstruct, incCounter, engineHalt, engineHaltEvent, kStreamChannel,
      kInvalidChannel, collP, cdefNS, psP, src0, mFull, stLH, List.range, List.range.loop]

/-- C6 counterexample: with master gain `G = 1`, a master bus of definition
gain 1 currently half ducked (`duck_gain = 1/2`) and a child bus `X` of
definition gain 1 and `duck_gain = 1`, the gain `UpdateGain` computes for
`X` is `1/2`, not the claimed `G ⬝ g1 ⬝ g2 ⬝ X.duck_gain = 1`: the claim
omits the duck gains of the intermediate buses on the path. -/
theorem c6_counterexample :
    busGainAt 1 busMaster [0] = some (1 / 2) ∧
    busGainAt 1 busMaster [0] ≠
      some (1 * (busMaster.defGainOf * busX.defGainOf) * busX.duckGainOf) := by
  refine ⟨?_, ?_⟩ <;>
    norm_num [busGainAt, busMaster, busX, BusTree.defGainOf, BusTree.duckGainOf]

/-- C6 amended: after the gain propagation of `AdvanceFrame` with
`mute = false` and master gain `G`, a bus `X` reached from the master along
a chain of buses has gain `G` times the product of the definition gains of
every bus on the chain (master and `X` included) times the product of the
duck gains of every bus on the chain; with `mute = true` the parent gain
fed to the master is `0`, and every reachable bus's gain is `0` regardless
of the master gain. -/
theorem c6_gain_composition_amended (G : ℚ) (t : BusTree) (p : List Nat)
    (ns : List BusTree) (h : busPathNodes t p = some ns) :
    busGainAt G t p =
      some (G * (ns.map BusTree.defGainOf).prod * (ns.map BusTree.duckGainOf).prod) ∧
    busGainAt 0 t p = some 0 := by
  induction p generalizing G t ns with
  | nil =>
    cases t with
    | node g d cs =>
      simp only [busPathNodes, Option.some.injEq] at h
      subst h
      simp [busGainAt, BusTree.defGainOf, BusTree.duckGainOf]
  | cons i p ih =>
    cases t with
    | node g d cs =>
      simp only [busPathNodes, BusTree.childrenOf] at h
      cases hc : cs[i]? with
      | none => rw [hc] at h; simp at h
      | some c =>
        rw [hc] at h
        simp only [Option.map_eq_some'] at h
        obtain ⟨l, hl, rfl⟩ := h
        have ihc := ih (G * g * d) c l hl
        have ihz := ih 0 c l hl
        constructor
        · simp only [busGainAt, hc]
          rw [ihc.1]
          simp only [List.map_cons, List.prod_cons, BusTree.defGainOf, BusTree.duckGainOf,
            Option.some.injEq]
          ring
        · simp only [busGainAt, hc]
          have hz : (0 : ℚ) * g * d = 0 := by ring
          rw [hz, ihz.2]

/-- Witness for C6 amended: the two-bus fixture, path `[0]` from the master
to `X`. -/
theorem c6_gain_composition_amended_witness :
    busGainAt 1 busMaster [0] =
      some (1 * ([busMaster, busX].map BusTree.defGainOf).prod *
        ([busMaster, busX].map BusTree.duckGainOf).prod) ∧
    busGainAt 0 busMaster [0] = some 0 :=
  c6_gain_composition_amended 1 busMaster [0] [busMaster, busX]
    (by simp [busPathNodes, busMaster, busX, BusTree.childrenOf])

theorem updateBank_cons (k : String) (v : SoundBank) (l : List (String × SoundBank))
    (name : String) (f : SoundBank → SoundBank) :
    updateBank ((k, v) :: l) name f =
      (if k = name then (k, f v) else (k, v)) :: updateBank l name f := by
  by_cases h : k = name <;> simp [updateBank, h]

theorem lookup_updateBank (l : List (String × SoundBank)) (name : String)
    (f : SoundBank → SoundBank) :
    (updateBank l name f).lookup name = (l.lookup name).map f := by
  induction l with
  | nil => simp [updateBank]
  | cons p l ih =>
    obtain ⟨k, v⟩ := p
    rw [updateBank_cons]
    by_cases h : k = name
    · subst h
      simp [List.lookup_cons]
    · have hbk : (name == k) = false := beq_eq_false_iff_ne.mpr (Ne.symm h)
      rw [if_neg h, List.lookup_cons, List.lookup_cons, hbk]
      simpa using ih

theorem lookup_append_single (l : List (String × SoundBank)) (name : String)
    (b : SoundBank) (h : l.lookup name = none) :
    (l ++ [(name, b)]).lookup name = some b := by
  induction l with
  | nil => simp [List.lookup_cons]
  | cons p l ih =>
    obtain ⟨k, v⟩ := p
    rw [List.cons_append, List.lookup_cons]
    rw [List.lookup_cons] at h
    cases hbk : (name == k) with
    | true =>
        rw [hbk] at h
        simp at h
    | false =>
        rw [hbk] at h
        exact ih h

/-- C7: once a bank is registered, every further `LoadSoundBank` on it
returns success and only increments its reference counter: the stored bank
record keeps its `inited` flag and collection list and the engine's
collection map is untouched.  `UnloadSoundBank` on a registered bank
decrements the counter and walks the bank's collections (releasing each)
exactly when the counter reaches zero.  Consequently, in the two-bank
fixture where banks A and B both list collection C, unloading A leaves C
loaded with one reference and unloading B then releases C. -/
theorem c7_bank_ref_counting :
    (∀ st : BankEngineState, ∀ name b bankDef initOk,
      st.sound_bank_map.lookup name = some b →
      loadSoundBank st name bankDef initOk =
        (true, { st with sound_bank_map := (updateBank st.sound_bank_map name
            (fun bb => { bb with ref_counter := bb.ref_counter + 1 })) }) ∧
      (loadSoundBank st name bankDef initOk).2.sound_bank_map.lookup name =
        some { b with ref_counter := b.ref_counter + 1 } ∧
      (loadSoundBank st name bankDef initOk).2.collection_map = st.collection_map) ∧
    (∀ st : BankEngineState, ∀ name b,
      st.sound_bank_map.lookup name = some b →
      (unloadSoundBank st name).map (fun s => s.sound_bank_map.lookup name) =
        some (some { b with ref_counter := b.ref_counter - 1 }) ∧
      (unloadSoundBank st name).map (fun s => s.collection_map) =
        some (if b.ref_counter - 1 = 0
          then bankDeinitCollections st.collection_map b.collections
          else st.collection_map)) ∧
    (bkAB.collection_map = [("C", 2)] ∧
     (unloadSoundBank bkAB "A").map (fun s => s.collection_map) = some [("C", 1)] ∧
     ((unloadSoundBank bkAB "A").bind (fun s => unloadSoundBank s "B")).map
        (fun s => s.collection_map) = some []) := by
  refine ⟨?_, ?_, ?_, ?_, ?_⟩
  · intro st name b bankDef initOk h
    refine ⟨?_, ?_, ?_⟩
    · simp [loadSoundBank, h]
    · simp [loadSoundBank, h, lookup_updateBank]
    · simp [loadSoundBank, h]
  · intro st name b h
    by_cases hz : b.ref_counter - 1 = 0 <;>
      simp [unloadSoundBank, h, hz, lookup_updateBank]
  · simp [bkAB, bkA, bk0, loadSoundBank, bankInitCollections, loadCollection, updateBank,
      List.lookup_cons]
  · simp [bkAB, bkA, bk0, loadSoundBank, bankInitCollections, loadCollection, updateBank,
      unloadSoundBank, bankDeinitCollections, unloadCollection, List.lookup_cons]
  · simp [bkAB, bkA, bk0, loadSoundBank, bankInitCollections, loadCollection, updateBank,
      unloadSoundBank, bankDeinitCollections, unloadCollection, List.lookup_cons]

/-- Witness for C7: a second load of the already-registered bank A of the
one-bank fixture succeeds, bumps its counter to 2 and leaves the
collection map alone. -/
theorem c7_bank_ref_counting_witness :
    loadSoundBank bkA "A" ["C"] true =
      (true, { bkA with sound_bank_map := (updateBank bkA.sound_bank_map "A"
          (fun bb => { bb with ref_counter := bb.ref_counter + 1 })) }) ∧
    (loadSoundBank bkA "A" ["C"] true).2.sound_bank_map.lookup "A" =
      some { ref_counter := 2, inited := true, collections := ["C"] } ∧
    (loadSoundBank bkA "A" ["C"] true).2.collection_map = bkA.collection_map := by
  have h := c7_bank_ref_counting.1 bkA "A" ⟨1, true, ["C"]⟩ ["C"] true
    (by simp [bkA, bk0, loadSoundBank, updateBank, List.lookup_cons])
  exact ⟨h.1, by simpa using h.2.1, h.2.2⟩

/-- C9: a failed `SoundBank::Initialize` during a first `LoadSoundBank`
leaves the bank registered under its name with reference count zero and the
`inited` flag still false (the `sound_bank_map_[filename]` insertion
happens before `Initialize` runs and is not rolled back), and the load
returns failure; a subsequent `LoadSoundBank` of the same name then finds
the bank registered, increments its counter to one and returns success
although the bank was never initialized. -/
theorem c9_failed_load_not_atomic (st : BankEngineState) (name : String)
    (bankDef bankDef2 : List String) (initOk2 : Bool)
    (h : st.sound_bank_map.lookup name = none) :
    loadSoundBank st name bankDef false =
      (false, { st with sound_bank_map := st.sound_bank_map ++ [(name, ⟨0, false, bankDef⟩)] }) ∧
    (loadSoundBank st name bankDef false).2.sound_bank_map.lookup name =
      some ⟨0, false, bankDef⟩ ∧
    (loadSoundBank (loadSoundBank st name bankDef false).2 name bankDef2 initOk2).1 = true ∧
    (loadSoundBank (loadSoundBank st name bankDef false).2 name
        bankDef2 initOk2).2.sound_bank_map.lookup name = some ⟨1, false, bankDef⟩ := by
  have h1 : loadSoundBank st name bankDef false =
      (false, { st with sound_bank_map := st.sound_bank_map ++ [(name, ⟨0, false, bankDef⟩)] }) := by
    simp [loadSoundBank, h]
  have h2 : ({ st with sound_bank_map :=
      st.sound_bank_map ++ [(name, ⟨0, false, bankDef⟩)] } :
        BankEngineState).sound_bank_map.lookup name = some ⟨0, false, bankDef⟩ :=
    lookup_append_single _ _ _ h
  have h3 : loadSoundBank ({ st with sound_bank_map :=
      st.sound_bank_map ++ [(name, ⟨0, false, bankDef⟩)] } : BankEngineState)
        name bankDef2 initOk2 =
      (true, { st with sound_bank_map := (updateBank
          (st.sound_bank_map ++ [(name, ⟨0, false, bankDef⟩)]) name
          (fun bb => { bb with ref_counter := bb.ref_counter + 1 })) }) := by
    rw [loadSoundBank]
    rw [h2]
  refine ⟨h1, by rw [h1]; exact h2, ?_, ?_⟩
  · rw [h1]
    rw [h3]
  · rw [h1]
    rw [h3]
    simp [lookup_updateBank, h2]

theorem mem_removeIf {st : EngineState} {p : PlayingSound → Bool} {x : PlayingSound}
    (h : x ∈ (removeIf st p).playing_sounds) : x ∈ st.playing_sounds :=
  (List.mem_filter.mp h).1

theorem mem_sorted_pruned {st : EngineState} {m : Mixer} {x : PlayingSound}
    (h : x ∈ prioritizeChannels (eraseFinishedSounds m st).playing_sounds) :
    x ∈ st.playing_sounds :=
  mem_removeIf (List.mem_mergeSort.mp h)

theorem popBack_subset (st : EngineState) :
    ∀ x ∈ (popBack st).playing_sounds, x ∈ st.playing_sounds := by
  intro x hx
  cases h : st.playing_sounds.getLast? with
  | none => simpa [popBack, h] using hx
  | some ps =>
      simp only [popBack, h] at hx
      exact List.dropLast_subset _ hx

theorem engineHalt_playChannelOk (m : Mixer) (ch : ChannelId) :
    (engineHalt m ch).playChannelOk = m.playChannelOk := by
  by_cases h : ch = kStreamChannel <;> simp [engineHalt, h]

theorem engineHalt_playMusicOk (m : Mixer) (ch : ChannelId) :
    (engineHalt m ch).playMusicOk = m.playMusicOk := by
  by_cases h : ch = kStreamChannel <;> simp [engineHalt, h]

theorem playFinish_reject (st : EngineState) (m : Mixer) (c : SoundCollection)
    (ch : ChannelId) (evs : List MixerEvent)
    (hbuf : m.playChannelOk = false) (hmus : m.playMusicOk = false) :
    ∃ evs2, playFinish st m c ch evs = some (ch, st, m, evs2) := by
  by_cases h : c.selected.isStream <;>
    simp [playFinish, playSource, h, hbuf, hmus]

theorem playFinish_ne_none (st : EngineState) (m : Mixer) (c : SoundCollection)
    (ch : ChannelId) (evs : List MixerEvent) : playFinish st m c ch evs ≠ none := by
  simp [playFinish]

/-- C2 counterexample: a non-null, non-stream handle played against an
idle one-channel mixer that rejects the play.  `FindFreeChannel` selects
channel `0`, the mixer rejects, and `PlaySound` returns channel `0` — not
the `Invalid` channel (`-1`) the claim requires — while recording
nothing. -/
theorem c2_counterexample :
    (playSound stEmpty mReject (some (collP 3))).map
        (fun r => (r.1, r.2.1.playing_sounds)) = some (0, []) ∧
    (0 : ChannelId) ≠ kInvalidChannel := by
  refine ⟨?_, by norm_num [kInvalidChannel]⟩
  norm_num [playSound, eraseFinishedSounds, removeIf, enginePlaying, findFreeChannel,
    playingChannelCount, playFinish, playSource, kStreamChannel, kInvalidChannel,
    collP, cdefNS, src0, mReject, stEmpty, List.range, List.range.loop]

/-- C2 amended: when the underlying mixer rejects the play request,
`PlaySound` appends no `PlayingSound` entry (every entry of the resulting
table was already in the incoming table), but it returns the channel id it
selected rather than `Invalid`: in particular, whenever `FindFreeChannel`
found a channel, that non-Invalid channel id is the return value. -/
theorem c2_mixer_failure_no_record (st : EngineState) (m : Mixer) (c : SoundCollection)
    (out : ChannelId × EngineState × Mixer × List MixerEvent)
    (hbuf : m.playChannelOk = false) (hmus : m.playMusicOk = false)
    (hres : playSound st m (some c) = some out) :
    (∀ x ∈ out.2.1.playing_sounds, x ∈ st.playing_sounds) ∧
    (findFreeChannel (decide (c.scdef.stream ≠ 0)) m ≠ kInvalidChannel →
      out.1 = findFreeChannel (decide (c.scdef.stream ≠ 0)) m) := by
  simp only [playSound] at hres
  by_cases hinv : findFreeChannel (decide (c.scdef.stream ≠ 0)) m = kInvalidChannel
  · rw [if_pos hinv] at hres
    cases hlast : (prioritizeChannels (eraseFinishedSounds m st).playing_sounds).getLast? with
    | none =>
        rw [hlast] at hres
        exact absurd hres (by simp)
    | some victim =>
        rw [hlast] at hres
        simp only [] at hres
        by_cases hcmp : soundCollectionDefComparitor c.scdef victim.sound_collection.scdef < 0
        · rw [if_pos hcmp] at hres
          obtain ⟨evs2, he⟩ := playFinish_reject _ (engineHalt m victim.channel_id) c
            victim.channel_id [engineHaltEvent victim.channel_id]
            (by rw [engineHalt_playChannelOk]; exact hbuf)
            (by rw [engineHalt_playMusicOk]; exact hmus)
          rw [he] at hres
          obtain rfl := (Option.some.injEq _ _).mp hres
          refine ⟨fun x hx => ?_, fun hne => absurd hinv hne⟩
          exact mem_sorted_pruned (popBack_subset _ x hx)
        · rw [if_neg hcmp] at hres
          obtain rfl := (Option.some.injEq _ _).mp hres
          exact ⟨fun x hx => mem_sorted_pruned hx, fun hne => absurd hinv hne⟩
  · rw [if_neg hinv] at hres
    by_cases hstr : findFreeChannel (decide (c.scdef.stream ≠ 0)) m = kStreamChannel
    · rw [if_pos hstr] at hres
      by_cases hmp : enginePlaying m (findFreeChannel (decide (c.scdef.stream ≠ 0)) m) = true
      · rw [if_pos hmp] at hres
        obtain ⟨evs2, he⟩ := playFinish_reject (eraseStreams (eraseFinishedSounds m st))
          (engineHalt m (findFreeChannel (decide (c.scdef.stream ≠ 0)) m)) c
          (findFreeChannel (decide (c.scdef.stream ≠ 0)) m)
          [engineHaltEvent (findFreeChannel (decide (c.scdef.stream ≠ 0)) m)]
          (by rw [engineHalt_playChannelOk]; exact hbuf)
          (by rw [engineHalt_playMusicOk]; exact hmus)
        rw [he] at hres
        obtain rfl := (Option.some.injEq _ _).mp hres
        exact ⟨fun x hx => mem_removeIf (mem_removeIf hx), fun _ => rfl⟩
      · rw [if_neg hmp] at hres
        obtain ⟨evs2, he⟩ := playFinish_reject (eraseFinishedSounds m st) m c
          (findFreeChannel (decide (c.scdef.stream ≠ 0)) m) [] hbuf hmus
        rw [he] at hres
        obtain rfl := (Option.some.injEq _ _).mp hres
        exact ⟨fun x hx => mem_removeIf hx, fun _ => rfl⟩
    · rw [if_neg hstr] at hres
      obtain ⟨evs2, he⟩ := playFinish_reject (eraseFinishedSounds m st) m c
        (findFreeChannel (decide (c.scdef.stream ≠ 0)) m) [] hbuf hmus
      rw [he] at hres
      obtain rfl := (Option.some.injEq _ _).mp hres
      exact ⟨fun x hx => mem_removeIf hx, fun _ => rfl⟩

/-- Witness for C2 amended: the rejecting-mixer fixture, where channel 0 is
free and returned. -/
theorem c2_mixer_failure_no_record_witness :
    (∀ x ∈ ((0 : ChannelId), stEmpty, mReject,
        [MixerEvent.setChannelVolume 0 1, MixerEvent.playChannel 0]).2.1.playing_sounds,
      x ∈ stEmpty.playing_sounds) ∧
    (findFreeChannel (decide ((collP 3).scdef.stream ≠ 0)) mReject ≠ kInvalidChannel →
      ((0 : ChannelId), stEmpty, mReject,
        [MixerEvent.setChannelVolume 0 1, MixerEvent.playChannel 0]).1 =
        findFreeChannel (decide ((collP 3).scdef.stream ≠ 0)) mReject) :=
  c2_mixer_failure_no_record stEmpty mReject (collP 3) _ rfl rfl
    (by norm_num [playSound, eraseFinishedSounds, removeIf, enginePlaying, findFreeChannel,
      playingChannelCount, playFinish, playSource, kStreamChannel, kInvalidChannel,
      collP, cdefNS, src0, mReject, stEmpty, List.range, List.range.loop])

/-- C10: `playSound` hits the unchecked `playing_sounds_.back()` (modelled
as the `none` result) exactly when the request is non-stream, no buffer
channel is free, and the table is empty after pruning; in particular it
does so when the mixer has zero allocated channels and nothing is playing,
and it is well defined whenever the pruned table is non-empty in that
situation. -/
theorem c10_back_on_empty_table :
    (∀ st m (c : SoundCollection), playSound st m (some c) = none ↔
      (c.scdef.stream = 0 ∧ findFreeChannel false m = kInvalidChannel ∧
        (eraseFinishedSounds m st).playing_sounds = [])) ∧
    playSound stEmpty mZero (some (collP 3)) = none := by
  constructor
  · intro st m c
    constructor
    · intro hnone
      simp only [playSound] at hnone
      by_cases hs : c.scdef.stream = 0
      · have hdec : (decide (c.scdef.stream ≠ 0)) = false := by simp [hs]
        rw [hdec] at hnone
        by_cases hfree : findFreeChannel false m = kInvalidChannel
        · rw [if_pos hfree] at hnone
          cases hlast : (prioritizeChannels (eraseFinishedSounds m st).playing_sounds).getLast? with
          | none =>
              refine ⟨hs, hfree, ?_⟩
              have hsort : prioritizeChannels (eraseFinishedSounds m st).playing_sounds = [] :=
                List.getLast?_eq_none_iff.mp hlast
              have hlen := congrArg List.length hsort
              rw [prioritizeChannels, List.length_mergeSort] at hlen
              exact List.length_eq_zero.mp hlen
          | some victim =>
              rw [hlast] at hnone
              simp only [] at hnone
              by_cases hcmp :
                  soundCollectionDefComparitor c.scdef victim.sound_collection.scdef < 0
              · rw [if_pos hcmp] at hnone
                exact absurd hnone (playFinish_ne_none _ _ _ _ _)
              · rw [if_neg hcmp] at hnone
                exact absurd hnone (by simp)
        · rw [if_neg hfree] at hnone
          by_cases hstr : findFreeChannel false m = kStreamChannel
          · rw [if_pos hstr] at hnone
            by_cases hmp : enginePlaying m (findFreeChannel false m) = true
            · rw [if_pos hmp] at hnone
              exact absurd hnone (playFinish_ne_none _ _ _ _ _)
            · rw [if_neg hmp] at hnone
              exact absurd hnone (playFinish_ne_none _ _ _ _ _)
          · rw [if_neg hstr] at hnone
            exact absurd hnone (playFinish_ne_none _ _ _ _ _)
      · have hdec : (decide (c.scdef.stream ≠ 0)) = true := by simp [hs]
        rw [hdec] at hnone
        have hff : findFreeChannel true m = kStreamChannel := rfl
        rw [hff] at hnone
        have h1 : kStreamChannel ≠ kInvalidChannel := by norm_num [kStreamChannel, kInvalidChannel]
        rw [if_neg h1, if_pos rfl] at hnone
        by_cases hmp : enginePlaying m kStreamChannel = true
        · rw [if_pos hmp] at hnone
          exact absurd hnone (playFinish_ne_none _ _ _ _ _)
        · rw [if_neg hmp] at hnone
          exact absurd hnone (playFinish_ne_none _ _ _ _ _)
    · rintro ⟨hs, hfree, hemp⟩
      have hdec : (decide (c.scdef.stream ≠ 0)) = false := by simp [hs]
      simp only [playSound, hdec, hfree, if_pos, hemp, prioritizeChannels]
      simp [List.mergeSort]
  · norm_num [playSound, eraseFinishedSounds, removeIf, enginePlaying, findFreeChannel,
      playingChannelCount, prioritizeChannels, playFinish, playSource, kStreamChannel,
      kInvalidChannel, collP, cdefNS, src0, mZero, stEmpty, List.range, List.mergeSort]

theorem countP_split (l : List PlayingSound) (q p : PlayingSound → Bool) :
    l.countP q = (l.filter p).countP q + (l.filter (fun x => ! p x)).countP q := by
  induction l with
  | nil => simp
  | cons a l ih =>
      by_cases hp : p a <;>
        simp [List.countP_cons, List.filter_cons, hp, ih] <;> omega

theorem countBus_cons (ps : PlayingSound) (l : List PlayingSound) (b : Nat) :
    countBus (ps :: l) b =
      countBus l b + (if ps.sound_collection.bus == some b then 1 else 0) := by
  by_cases h : (ps.sound_collection.bus == some b) = true <;>
    simp [countBus, List.countP_cons, h]

theorem countBus_append_single (l : List PlayingSound) (ps : PlayingSound) (b : Nat) :
    countBus (l ++ [ps]) b =
      countBus l b + (if ps.sound_collection.bus == some b then 1 else 0) := by
  by_cases h : (ps.sound_collection.bus == some b) = true <;>
    simp [countBus, List.countP_append, List.countP_cons, h]

theorem countBus_perm {l l' : List PlayingSound} (hp : l.Perm l') (b : Nat) :
    countBus l b = countBus l' b := by
  unfold countBus
  rw [hp.countP_eq]

theorem psConstruct_apply (c : Nat → Int) (ps : PlayingSound) (b : Nat) :
    psConstruct c ps b = c b + (if ps.sound_collection.bus == some b then 1 else 0) := by
  unfold psConstruct incCounter
  cases hb : ps.sound_collection.bus with
  | none => simp
  | some bb =>
      by_cases h : b = bb
      · subst h; simp
      · simp [h, Ne.symm h]

theorem psDestruct_apply (c : Nat → Int) (ps : PlayingSound) (b : Nat) :
    psDestruct c ps b = c b - (if ps.sound_collection.bus == some b then 1 else 0) := by
  unfold psDestruct decCounter
  cases hb : ps.sound_collection.bus with
  | none => simp
  | some bb =>
      by_cases h : b = bb
      · subst h; simp
      · simp [h, Ne.symm h]

theorem foldl_psDestruct_apply (l : List PlayingSound) (c : Nat → Int) (b : Nat) :
    l.foldl psDestruct c b = c b - countBus l b := by
  induction l generalizing c with
  | nil => simp [countBus]
  | cons ps l ih =>
      rw [List.foldl_cons, ih, psDestruct_apply, countBus_cons]
      ring

theorem removeIf_preserves_countersOk {st : EngineState} {p : PlayingSound → Bool}
    (h : countersOk st) : countersOk (removeIf st p) := by
  intro b
  have h1 : (removeIf st p).sound_counter b =
      (st.playing_sounds.filter p).foldl psDestruct st.sound_counter b := rfl
  have h2 : (removeIf st p).playing_sounds = st.playing_sounds.filter (fun x => ! p x) := rfl
  rw [h1, h2, foldl_psDestruct_apply, h b]
  have hs := countP_split st.playing_sounds (fun ps => ps.sound_collection.bus == some b) p
  simp only [countBus]
  omega

theorem pushBack_preserves_countersOk {st : EngineState} {ps : PlayingSound}
    (h : countersOk st) : countersOk (pushBack st ps) := by
  intro b
  have h1 : (pushBack st ps).sound_counter b = psConstruct st.sound_counter ps b := rfl
  have h2 : (pushBack st ps).playing_sounds = st.playing_sounds ++ [ps] := rfl
  rw [h1, h2, psConstruct_apply, countBus_append_single, h b]

theorem popBack_preserves_countersOk {st : EngineState} (h : countersOk st) :
    countersOk (popBack st) := by
  cases hl : st.playing_sounds.getLast? with
  | none =>
      intro b
      simp only [popBack, hl]
      exact h b
  | some ps =>
      intro b
      obtain ⟨l', hsplit⟩ := List.getLast?_eq_some_iff.mp hl
      simp only [popBack, hl]
      rw [psDestruct_apply, h b, hsplit, List.dropLast_concat, countBus_append_single]
      ring

theorem sort_preserves_countersOk {st1 : EngineState} (h : countersOk st1) :
    countersOk { st1 with playing_sounds := prioritizeChannels st1.playing_sounds } := by
  intro b
  have hp := countBus_perm
    (List.mergeSort_perm st1.playing_sounds priorityComparitorAsBool) b
  have h1 : ({ st1 with playing_sounds :=
      prioritizeChannels st1.playing_sounds } : EngineState).sound_counter b =
      st1.sound_counter b := rfl
  rw [h1, h b]
  exact hp.symm

theorem playFinish_preserves_countersOk {st : EngineState} {m : Mixer}
    {c : SoundCollection} {ch : ChannelId} {evs : List MixerEvent}
    {out : ChannelId × EngineState × Mixer × List MixerEvent}
    (h : countersOk st) (hres : playFinish st m c ch evs = some out) :
    countersOk out.2.1 := by
  simp only [playFinish] at hres
  by_cases hp : (playSource c.selected ch c m).1 = true
  · rw [if_pos hp] at hres
    obtain rfl := (Option.some.injEq _ _).mp hres
    exact pushBack_preserves_countersOk h
  · rw [if_neg hp] at hres
    obtain rfl := (Option.some.injEq _ _).mp hres
    exact h

theorem playSound_preserves_countersOk {st : EngineState} {m : Mixer}
    {h : Option SoundCollection} {out : ChannelId × EngineState × Mixer × List MixerEvent}
    (hok : countersOk st) (hres : playSound st m h = some out) : countersOk out.2.1 := by
  cases h with
  | none =>
      simp only [playSound] at hres
      obtain rfl := (Option.some.injEq _ _).mp hres
      exact hok
  | some c =>
      simp only [playSound] at hres
      have h1 : countersOk (eraseFinishedSounds m st) := removeIf_preserves_countersOk hok
      by_cases hinv : findFreeChannel (decide (c.scdef.stream ≠ 0)) m = kInvalidChannel
      · rw [if_pos hinv] at hres
        cases hlast : (prioritizeChannels (eraseFinishedSounds m st).playing_sounds).getLast? with
        | none =>
            rw [hlast] at hres
            exact absurd hres (by simp)
        | some victim =>
            rw [hlast] at hres
            simp only [] at hres
            have h2 := sort_preserves_countersOk h1
            by_cases hcmp : soundCollectionDefComparitor c.scdef victim.sound_collection.scdef < 0
            · rw [if_pos hcmp] at hres
              exact playFinish_preserves_countersOk (popBack_preserves_countersOk h2) hres
            · rw [if_neg hcmp] at hres
              obtain rfl := (Option.some.injEq _ _).mp hres
              exact h2
      · rw [if_neg hinv] at hres
        by_cases hstr : findFreeChannel (decide (c.scdef.stream ≠ 0)) m = kStreamChannel
        · rw [if_pos hstr] at hres
          by_cases hmp : enginePlaying m (findFreeChannel (decide (c.scdef.stream ≠ 0)) m) = true
          · rw [if_pos hmp] at hres
            exact playFinish_preserves_countersOk (removeIf_preserves_countersOk h1) hres
          · rw [if_neg hmp] at hres
            exact playFinish_preserves_countersOk h1 hres
        · rw [if_neg hstr] at hres
          exact playFinish_preserves_countersOk h1 hres

/-- C4: the channel-accounting invariant — every bus's `sound_counter`
equals the number of `playing_sounds` entries bound to it — is preserved by
`PlaySound`, by `AdvanceFrame`, and by the pruning operations
`EraseFinishedSounds` and `EraseStreams`; and the `PlayingSound` special
members account as claimed: construction and copy-construction add one to
the entry's bus counter, destruction subtracts one, and copy assignment
subtracts one from the target's bus and adds one to the source's bus. -/
theorem c4_channel_accounting :
    (∀ st m h out, countersOk st → playSound st m h = some out → countersOk out.2.1) ∧
    (∀ st t, countersOk st → countersOk (advanceFrame st t)) ∧
    (∀ st m, countersOk st → countersOk (eraseFinishedSounds m st)) ∧
    (∀ st, countersOk st → countersOk (eraseStreams st)) ∧
    (∀ c (ps : PlayingSound) b, psConstruct c ps b =
        c b + (if ps.sound_collection.bus == some b then 1 else 0)) ∧
    (∀ c (ps : PlayingSound) b, psDestruct c ps b =
        c b - (if ps.sound_collection.bus == some b then 1 else 0)) ∧
    (∀ c (target other : PlayingSound) b, psAssign c target other b =
        c b - (if target.sound_collection.bus == some b then 1 else 0)
            + (if other.sound_collection.bus == some b then 1 else 0)) := by
  refine ⟨?_, ?_, ?_, ?_, psConstruct_apply, psDestruct_apply, ?_⟩
  · intro st m h out hok hres
    exact playSound_preserves_countersOk hok hres
  · intro st t hok b
    exact hok b
  · intro st m hok
    exact removeIf_preserves_countersOk hok
  · intro st hok
    exact removeIf_preserves_countersOk hok
  · intro c target other b
    unfold psAssign
    rw [show incCounter (decCounter c target.sound_collection.bus)
        other.sound_collection.bus = psConstruct (psDestruct c target) other from rfl]
    rw [psConstruct_apply, psDestruct_apply]

/-- Witness for C4: the invariant holds after playing the stream fixture
into the engine state holding one stream sound on bus 1. -/
theorem c4_channel_accounting_witness :
    countersOk ((playSound stS mMusic (some collS)).getD
      (0, stEmpty, mMusic, [])).2.1 := by
  have hok : countersOk stS := by
    intro b
    by_cases hb : b = 1
    · simp [stS, countBus, collS, List.countP_cons, hb, kStreamChannel]
    · simp [stS, countBus, collS, List.countP_cons, hb, Ne.symm hb, kStreamChannel]
  cases hplay : playSound stS mMusic (some collS) with
  | none =>
      have hprj : (playSound stS mMusic (some collS)).map (fun r => r.1) = some (-100) := by
        norm_num [playSound, eraseFinishedSounds, eraseStreams, removeIf, enginePlaying,
          findFreeChannel, playingChannelCount, playFinish, playSource, kStreamChannel,
          kInvalidChannel, collS, cdefS, srcS, mMusic, stS, List.range, List.range.loop]
      rw [hplay] at hprj
      exact absurd hprj (by simp)
  | some out =>
      exact c4_channel_accounting.1 stS mMusic (some collS) out hok hplay

theorem streamCount_filter_le (l : List PlayingSound) (p : PlayingSound → Bool) :
    streamCount (l.filter p) ≤ streamCount l := by
  unfold streamCount
  rw [List.countP_filter]
  refine List.countP_mono_left (fun x _ h => ?_)
  rw [Bool.and_eq_true] at h
  exact h.1

theorem streamCount_removeIf_le (st : EngineState) (p : PlayingSound → Bool) :
    streamCount (removeIf st p).playing_sounds ≤ streamCount st.playing_sounds :=
  streamCount_filter_le _ _

theorem streamCount_sorted (l : List PlayingSound) :
    streamCount (prioritizeChannels l) = streamCount l := by
  unfold streamCount prioritizeChannels
  exact (List.mergeSort_perm l priorityComparitorAsBool).countP_eq _

theorem streamCount_append_single (l : List PlayingSound) (ps : PlayingSound) :
    streamCount (l ++ [ps]) =
      streamCount l + (if ps.channel_id == kStreamChannel then 1 else 0) := by
  by_cases h : (ps.channel_id == kStreamChannel) = true <;>
    simp [streamCount, List.countP_append, List.countP_cons, h]

theorem streamCount_eraseStreams (st : EngineState) :
    streamCount (eraseStreams st).playing_sounds = 0 := by
  unfold streamCount
  rw [List.countP_eq_zero]
  intro ps hps
  have h2 := (List.mem_filter.mp hps).2
  simp only [Bool.not_eq_true'] at h2
  simp [h2]

theorem streamCount_pruned_no_music {m : Mixer} (st : EngineState)
    (hm : m.musicPlaying = false) :
    streamCount (eraseFinishedSounds m st).playing_sounds = 0 := by
  unfold streamCount
  rw [List.countP_eq_zero]
  intro ps hps
  have h2 := (List.mem_filter.mp hps).2
  simp only [Bool.not_not] at h2
  intro hch
  have hcheq := eq_of_beq hch
  rw [hcheq] at h2
  simp [enginePlaying, hm] at h2

theorem streamCount_of_getLast {l : List PlayingSound} {v : PlayingSound}
    (h : l.getLast? = some v) :
    streamCount l =
      streamCount l.dropLast + (if v.channel_id == kStreamChannel then 1 else 0) := by
  obtain ⟨l', rfl⟩ := List.getLast?_eq_some_iff.mp h
  rw [List.dropLast_concat, streamCount_append_single]

theorem playFinish_cases {st : EngineState} {m : Mixer} {c : SoundCollection}
    {ch : ChannelId} {evs : List MixerEvent}
    {out : ChannelId × EngineState × Mixer × List MixerEvent}
    (hres : playFinish st m c ch evs = some out) :
    out.1 = ch ∧
    (out.2.1 = pushBack st (PlayingSound.mk c ch st.world_time) ∨ out.2.1 = st) ∧
    ∃ evs2, out.2.2.2 = evs ++ evs2 := by
  simp only [playFinish] at hres
  by_cases hp : (playSource c.selected ch c m).1 = true
  · rw [if_pos hp] at hres
    obtain rfl := (Option.some.injEq _ _).mp hres
    exact ⟨rfl, Or.inl rfl, _, rfl⟩
  · rw [if_neg hp] at hres
    obtain rfl := (Option.some.injEq _ _).mp hres
    exact ⟨rfl, Or.inr rfl, _, rfl⟩

theorem playFinish_streamCount {st : EngineState} {m : Mixer} {c : SoundCollection}
    {ch : ChannelId} {evs : List MixerEvent}
    {out : ChannelId × EngineState × Mixer × List MixerEvent}
    (hres : playFinish st m c ch evs = some out) :
    streamCount out.2.1.playing_sounds ≤
      streamCount st.playing_sounds + (if ch == kStreamChannel then 1 else 0) := by
  obtain ⟨-, hstate, -⟩ := playFinish_cases hres
  cases hstate with
  | inl hpush =>
      rw [hpush]
      rw [show (pushBack st (PlayingSound.mk c ch st.world_time)).playing_sounds =
          st.playing_sounds ++ [PlayingSound.mk c ch st.world_time] from rfl]
      rw [streamCount_append_single]
  | inr hsame =>
      rw [hsame]
      exact Nat.le_add_right _ _

theorem playSound_preserves_streamCount {st : EngineState} {m : Mixer}
    {h : Option SoundCollection} {out : ChannelId × EngineState × Mixer × List MixerEvent}
    (hle : streamCount st.playing_sounds ≤ 1) (hres : playSound st m h = some out) :
    streamCount out.2.1.playing_sounds ≤ 1 := by
  cases h with
  | none =>
      simp only [playSound] at hres
      obtain rfl := (Option.some.injEq _ _).mp hres
      exact hle
  | some c =>
      simp only [playSound] at hres
      have h1 : streamCount (eraseFinishedSounds m st).playing_sounds ≤ 1 :=
        le_trans (streamCount_removeIf_le _ _) hle
      by_cases hinv : findFreeChannel (decide (c.scdef.stream ≠ 0)) m = kInvalidChannel
      · rw [if_pos hinv] at hres
        cases hlast : (prioritizeChannels (eraseFinishedSounds m st).playing_sounds).getLast? with
        | none =>
            rw [hlast] at hres
            exact absurd hres (by simp)
        | some victim =>
            rw [hlast] at hres
            simp only [] at hres
            have hsorted :
                streamCount (prioritizeChannels (eraseFinishedSounds m st).playing_sounds) ≤ 1 := by
              rw [streamCount_sorted]
              exact h1
            by_cases hcmp : soundCollectionDefComparitor c.scdef victim.sound_collection.scdef < 0
            · rw [if_pos hcmp] at hres
              have hpop : (popBack { playing_sounds := prioritizeChannels (eraseFinishedSounds m st).playing_sounds, sound_counter := (eraseFinishedSounds m st).sound_counter, world_time := (eraseFinishedSounds m st).world_time }).playing_sounds = (prioritizeChannels (eraseFinishedSounds m st).playing_sounds).dropLast := by
                simp only [popBack, hlast]
              have hb := playFinish_streamCount hres
              rw [hpop] at hb
              have hsplit := streamCount_of_getLast hlast
              omega
            · rw [if_neg hcmp] at hres
              obtain rfl := (Option.some.injEq _ _).mp hres
              exact hsorted
      · rw [if_neg hinv] at hres
        by_cases hstr : findFreeChannel (decide (c.scdef.stream ≠ 0)) m = kStreamChannel
        · rw [if_pos hstr] at hres
          rw [hstr] at hres
          by_cases hmp : enginePlaying m kStreamChannel = true
          · rw [if_pos hmp] at hres
            have hb := playFinish_streamCount hres
            rw [streamCount_eraseStreams] at hb
            simpa using hb
          · rw [if_neg hmp] at hres
            simp only [enginePlaying, if_pos rfl, Bool.not_eq_true] at hmp
            have hz := streamCount_pruned_no_music (m := m) st hmp
            have hb := playFinish_streamCount hres
            rw [hz] at hb
            simpa using hb
        · rw [if_neg hstr] at hres
          have hb := playFinish_streamCount hres
          have hind : (findFreeChannel (decide (c.scdef.stream ≠ 0)) m == kStreamChannel) = false :=
            beq_eq_false_iff_ne.mpr hstr
          rw [hind] at hb
          simpa using le_trans hb (by simpa using h1)

/-- C5: the stream-singleton invariant.  If `playing_sounds` holds at most
one entry on the stream channel, it still does after any `PlaySound` call;
and playing a stream collection while the mixer reports a stream playing
first halts the music (the first mixer command of the call is `HaltMusic`)
and erases the prior stream entries, so that every stream-channel entry of
the resulting table is the newly recorded one. -/
theorem c5_stream_singleton :
    (∀ st m h out, streamCount st.playing_sounds ≤ 1 →
      playSound st m h = some out → streamCount out.2.1.playing_sounds ≤ 1) ∧
    (∀ st m (c : SoundCollection) out, c.scdef.stream ≠ 0 → m.musicPlaying = true →
      playSound st m (some c) = some out →
      out.1 = kStreamChannel ∧
      out.2.2.2.head? = some MixerEvent.haltMusic ∧
      ∀ x ∈ out.2.1.playing_sounds, x.channel_id = kStreamChannel →
        x = PlayingSound.mk c kStreamChannel st.world_time) := by
  constructor
  · intro st m h out hle hres
    exact playSound_preserves_streamCount hle hres
  · intro st m c out hs hm hres
    have hdec : (decide (c.scdef.stream ≠ 0)) = true := by simpa using hs
    simp only [playSound, hdec] at hres
    have hneq : kStreamChannel ≠ kInvalidChannel := by norm_num [kStreamChannel, kInvalidChannel]
    rw [show findFreeChannel true m = kStreamChannel from rfl] at hres
    rw [if_neg hneq, if_pos rfl] at hres
    have hplaying : enginePlaying m kStreamChannel = true := by simp [enginePlaying, hm]
    rw [if_pos hplaying] at hres
    obtain ⟨hch, hstate, evs2, hevs⟩ := playFinish_cases hres
    refine ⟨hch, ?_, ?_⟩
    · rw [hevs]
      simp [engineHaltEvent]
    · intro x hx hxch
      cases hstate with
      | inl hpush =>
          rw [hpush] at hx
          rcases List.mem_append.mp hx with hin | hin
          · have h2 := (List.mem_filter.mp hin).2
            simp only [Bool.not_eq_true'] at h2
            rw [hxch] at h2
            simp at h2
          · simpa using hin
      | inr hsame =>
          rw [hsame] at hx
          have h2 := (List.mem_filter.mp hx).2
          simp only [Bool.not_eq_true'] at h2
          rw [hxch] at h2
          simp at h2

/-- Witness for C5: the stream-replaces-stream fixture. -/
theorem c5_stream_singleton_witness :
    streamCount ((playSound stS mMusic (some collS)).getD
      (0, stEmpty, mMusic, [])).2.1.playing_sounds ≤ 1 := by
  have hle : streamCount stS.playing_sounds ≤ 1 := by
    simp [stS, streamCount, List.countP_cons]
  cases hplay : playSound stS mMusic (some collS) with
  | none =>
      have hprj : (playSound stS mMusic (some collS)).map (fun r => r.1) = some (-100) := by
        norm_num [playSound, eraseFinishedSounds, eraseStreams, removeIf, enginePlaying,
          findFreeChannel, playingChannelCount, playFinish, playSource, kStreamChannel,
          kInvalidChannel, collS, cdefS, srcS, mMusic, stS, List.range, List.range.loop]
      rw [hplay] at hprj
      exact absurd hprj (by simp)
  | some out =>
      exact c5_stream_singleton.1 stS mMusic (some collS) out hle hplay

/-- Witness for C9: a failed load of bank A into the empty bank state,
followed by a successful-looking reload. -/
theorem c9_failed_load_not_atomic_witness :
    loadSoundBank bk0 "A" ["C"] false =
      (false, { bk0 with sound_bank_map := bk0.sound_bank_map ++ [("A", ⟨0, false, ["C"]⟩)] }) ∧
    (loadSoundBank bk0 "A" ["C"] false).2.sound_bank_map.lookup "A" =
      some ⟨0, false, ["C"]⟩ ∧
    (loadSoundBank (loadSoundBank bk0 "A" ["C"] false).2 "A" ["C"] true).1 = true ∧
    (loadSoundBank (loadSoundBank bk0 "A" ["C"] false).2 "A"
        ["C"] true).2.sound_bank_map.lookup "A" = some ⟨1, false, ["C"]⟩ :=
  c9_failed_load_not_atomic bk0 "A" ["C"] ["C"] true rfl

end Pindrop
